import Mathlib

/-!
# Verification of the tap-jira incremental REST-extraction engine

A shallow embedding of the record-level operations of
`src/tap_jira/streams.py`: Python JSON values become an inductive `Json`
type, Python `dict`s become insertion-ordered association lists, and each
stream method under scrutiny (`get_url_params`, `post_process`,
`get_child_context`, `get_records`, `get_next_page_token`,
`validate_response`) becomes a Lean function.  A Python call that can
raise is embedded as an `Option`-returning function, with `none` standing
for a raised exception.
-/

namespace TapJira

/-- Python JSON values, as returned by `response.json()` and stored in
records.  `Json.null` is Python `None`. -/
inductive Json where
  | null : Json
  | bool (b : Bool) : Json
  | num (n : Int) : Json
  | str (s : String) : Json
  | arr (xs : List Json) : Json
  | obj (fs : List (String × Json)) : Json

mutual

/-- Decidable equality on `Json`, written by hand because the automatic
derivation does not handle the nested occurrence under `List`. -/
def Json.decEq : (a b : Json) → Decidable (a = b)
  | .null, .null => .isTrue rfl
  | .bool a, .bool b =>
      if h : a = b then .isTrue (congrArg Json.bool h)
      else .isFalse fun hh => h (Json.bool.inj hh)
  | .num a, .num b =>
      if h : a = b then .isTrue (congrArg Json.num h)
      else .isFalse fun hh => h (Json.num.inj hh)
  | .str a, .str b =>
      if h : a = b then .isTrue (congrArg Json.str h)
      else .isFalse fun hh => h (Json.str.inj hh)
  | .arr xs, .arr ys =>
      match Json.decEqList xs ys with
      | .isTrue h => .isTrue (congrArg Json.arr h)
      | .isFalse h => .isFalse fun hh => h (Json.arr.inj hh)
  | .obj fs, .obj gs =>
      match Json.decEqObj fs gs with
      | .isTrue h => .isTrue (congrArg Json.obj h)
      | .isFalse h => .isFalse fun hh => h (Json.obj.inj hh)
  | .null, .bool _ => .isFalse fun h => Json.noConfusion h
  | .null, .num _ => .isFalse fun h => Json.noConfusion h
  | .null, .str _ => .isFalse fun h => Json.noConfusion h
  | .null, .arr _ => .isFalse fun h => Json.noConfusion h
  | .null, .obj _ => .isFalse fun h => Json.noConfusion h
  | .bool _, .null => .isFalse fun h => Json.noConfusion h
  | .bool _, .num _ => .isFalse fun h => Json.noConfusion h
  | .bool _, .str _ => .isFalse fun h => Json.noConfusion h
  | .bool _, .arr _ => .isFalse fun h => Json.noConfusion h
  | .bool _, .obj _ => .isFalse fun h => Json.noConfusion h
  | .num _, .null => .isFalse fun h => Json.noConfusion h
  | .num _, .bool _ => .isFalse fun h => Json.noConfusion h
  | .num _, .str _ => .isFalse fun h => Json.noConfusion h
  | .num _, .arr _ => .isFalse fun h => Json.noConfusion h
  | .num _, .obj _ => .isFalse fun h => Json.noConfusion h
  | .str _, .null => .isFalse fun h => Json.noConfusion h
  | .str _, .bool _ => .isFalse fun h => Json.noConfusion h
  | .str _, .num _ => .isFalse fun h => Json.noConfusion h
  | .str _, .arr _ => .isFalse fun h => Json.noConfusion h
  | .str _, .obj _ => .isFalse fun h => Json.noConfusion h
  | .arr _, .null => .isFalse fun h => Json.noConfusion h
  | .arr _, .bool _ => .isFalse fun h => Json.noConfusion h
  | .arr _, .num _ => .isFalse fun h => Json.noConfusion h
  | .arr _, .str _ => .isFalse fun h => Json.noConfusion h
  | .arr _, .obj _ => .isFalse fun h => Json.noConfusion h
  | .obj _, .null => .isFalse fun h => Json.noConfusion h
  | .obj _, .bool _ => .isFalse fun h => Json.noConfusion h
  | .obj _, .num _ => .isFalse fun h => Json.noConfusion h
  | .obj _, .str _ => .isFalse fun h => Json.noConfusion h
  | .obj _, .arr _ => .isFalse fun h => Json.noConfusion h

/-- Decidable equality on lists of `Json`. -/
def Json.decEqList : (xs ys : List Json) → Decidable (xs = ys)
  | [], [] => .isTrue rfl
  | [], _ :: _ => .isFalse fun h => List.noConfusion h
  | _ :: _, [] => .isFalse fun h => List.noConfusion h
  | x :: xs, y :: ys =>
      match Json.decEq x y, Json.decEqList xs ys with
      | .isTrue h1, .isTrue h2 => .isTrue (by rw [h1, h2])
      | .isFalse h1, _ =>
          .isFalse (by intro hh; injection hh with ha hb; exact h1 ha)
      | _, .isFalse h2 =>
          .isFalse (by intro hh; injection hh with ha hb; exact h2 hb)

/-- Decidable equality on key-value lists of `Json`. -/
def Json.decEqObj : (fs gs : List (String × Json)) → Decidable (fs = gs)
  | [], [] => .isTrue rfl
  | [], _ :: _ => .isFalse fun h => List.noConfusion h
  | _ :: _, [] => .isFalse fun h => List.noConfusion h
  | (k, v) :: fs, (l, w) :: gs =>
      match String.decEq k l, Json.decEq v w, Json.decEqObj fs gs with
      | .isTrue hk, .isTrue hv, .isTrue ht => .isTrue (by rw [hk, hv, ht])
      | .isFalse hk, _, _ =>
          .isFalse (by
            intro hh
            injection hh with ha hb
            injection ha with hk2 hv2
            exact hk hk2)
      | _, .isFalse hv, _ =>
          .isFalse (by
            intro hh
            injection hh with ha hb
            injection ha with hk2 hv2
            exact hv hv2)
      | _, _, .isFalse ht =>
          .isFalse (by intro hh; injection hh with ha hb; exact ht hb)

end

instance : DecidableEq Json := Json.decEq

/-- A Python `dict` with string keys: an insertion-ordered association
list.  Real Python dicts never hold a duplicate key; theorems that need
that fact take a `Nodup` hypothesis on the key list. -/
abbrev Dict := List (String × Json)

/-- Read access `d.get(key)` / `d[key]`: the value at the first matching
key, if any. -/
def dget : Dict → String → Option Json
  | [], _ => none
  | (k, v) :: rest, key => if k = key then some v else dget rest key

/-- Assignment `d[key] = v`: replace the value in place when the key exists
(preserving its position, as Python dicts do), else append the new entry
at the end. -/
def dset : Dict → String → Json → Dict
  | [], key, v => [(key, v)]
  | (k, w) :: rest, key, v =>
      if k = key then (k, v) :: rest else (k, w) :: dset rest key v

/-- The removal part of `d.pop(key, default)`: drop the first entry with
the given key. -/
def dremove : Dict → String → Dict
  | [], _ => []
  | (k, v) :: rest, key => if k = key then rest else (k, v) :: dremove rest key

/-- The key list of a dict, in insertion order. -/
def dkeys (d : Dict) : List String := d.map Prod.fst

/-- Python `len(...)` on a JSON value: length of an array, number of keys
of an object, number of characters of a string; `none` (a `TypeError`)
otherwise. -/
def pyLen : Json → Option Nat
  | .arr xs => some xs.length
  | .obj fs => some fs.length
  | .str s => some s.length
  | _ => none

/-! ## UsersStream.get_next_page_token

```python
resp_json = response.json()
if previous_token is None:
    previous_token = 0
page = resp_json
if len(page) == 0:
    return None
return previous_token + len(page)
```
-/

/-- Embeds `UsersStream.get_next_page_token`.  The outer `Option` is exception
behaviour (`len` on a non-sized body raises); the inner `Option` is the
returned token, `none` meaning Python `None` (end of pagination). -/
def usersGetNextPageToken (body : Json) (previousToken : Option Int) :
    Option (Option Int) :=
  (pyLen body).map fun n =>
    if n = 0 then none else some (previousToken.getD 0 + n)

/-! ## IssueStream.get_child_context / BoardStream.get_child_context

```python
return {"issue_id": record["id"]}     # IssueStream
return {"board_id": record["id"]}     # BoardStream
```
`record["id"]` raises `KeyError` when the key is absent (`none` here). -/

/-- Embeds `IssueStream.get_child_context`. -/
def issueGetChildContext (record : Dict) : Option Dict :=
  (dget record "id").map fun v => [("issue_id", v)]

/-- Embeds `BoardStream.get_child_context`. -/
def boardGetChildContext (record : Dict) : Option Dict :=
  (dget record "id").map fun v => [("board_id", v)]

/-! ## IssueStream.post_process

```python
created = row.get("fields", {}).pop("created", None)
row["created"] = created
return row
```
`row.get("fields", {})` aliases the nested dict when present, so the
`pop` mutates it inside `row`; when `"fields"` is present but not a dict
the `.pop` call raises `AttributeError` (`none` here). -/

/-- Embeds `IssueStream.post_process`; `none` is a raised exception. -/
def issuePostProcess (row : Dict) : Option Dict :=
  match dget row "fields" with
  | some (Json.obj fs) =>
      let created := (dget fs "created").getD Json.null
      some (dset (dset row "fields" (Json.obj (dremove fs "created")))
        "created" created)
  | some _ => none
  | none => some (dset row "created" Json.null)

/-! ## WorkflowSearchStream.post_process

```python
if "id" in row:
    id_obj = row.pop("id")
    row["name"] = id_obj.get("name")
    row["entityId"] = id_obj.get("entityId")
return row
```
-/

/-- Embeds `WorkflowSearchStream.post_process`; `none` is a raised exception
(`id` present but not a dict). -/
def workflowSearchPostProcess (row : Dict) : Option Dict :=
  match dget row "id" with
  | none => some row
  | some (Json.obj io) =>
      let row1 := dremove row "id"
      let row2 := dset row1 "name" ((dget io "name").getD Json.null)
      some (dset row2 "entityId" ((dget io "entityId").getD Json.null))
  | some _ => none

/-! ## SprintStream.post_process / get_records / validate_response

```python
def post_process(self, row, context):
    if context:
        row["boardId"] = context["board_id"]
    return row

def get_records(self, context):
    for record in self.request_records(context):
        transformed_record = self.post_process(record, context)
        if transformed_record is None:
            continue
        yield transformed_record
```
-/

/-- Embeds `SprintStream.post_process`.  The outer `Option` is exception
behaviour (`context["board_id"]` raises `KeyError` when absent); the
inner `Option` is the returned Python value, `none` meaning `None`
(which this method never actually returns).  A `None` or empty context
is falsy, so no injection happens then. -/
def sprintPostProcess (row : Dict) (context : Option Dict) :
    Option (Option Dict) :=
  match context with
  | none => some (some row)
  | some ctx =>
      if ctx.isEmpty then some (some row)
      else
        match dget ctx "board_id" with
        | some v => some (some (dset row "boardId" v))
        | none => none

/-- Embeds `SprintStream.get_records`, applied to the materialized sequence of
request records: post-process each record, skip it when post-processing
returns `None`, propagate a raised exception (outer `none`). -/
def sprintGetRecords (context : Option Dict) : List Dict → Option (List Dict)
  | [] => some []
  | r :: rest =>
      match sprintPostProcess r context with
      | none => none
      | some none => sprintGetRecords context rest
      | some (some t) => (sprintGetRecords context rest).map fun l => t :: l

/-- The benign error message recognized by `SprintStream.validate_response`. -/
def boardSprintMsg : String := "The board does not support sprints"

/-- Modelled from the spec: the base `validate_response` (defined in the
client/SDK layer, which is not under `src/`) treats any non-2xx status as
a transport-level failure and raises; a 2xx status returns normally
(spec sections 6 and 7).  `true` means the response is accepted. -/
def defaultValidateResponse (status : Nat) : Bool :=
  decide (200 ≤ status ∧ status ≤ 299)

/-- Python `x in y` for a string `x` and a JSON value `y`: membership for
an array, substring test for a string, key membership for an object, and
a raised `TypeError` (`none`) otherwise. -/
def pyInStr (x : String) : Json → Option Bool
  | .arr xs => some (decide (Json.str x ∈ xs))
  | .str s => some (decide (x.data <:+: s.data))
  | .obj fs => some (decide (x ∈ dkeys fs))
  | _ => none

/-- Embeds `SprintStream.validate_response` on a response with the given status
code and parsed JSON body.  `some true`: the method returns normally;
`some false`: it falls through to the (spec-modelled) default validation
and that validation raises; `none`: an exception is raised while
evaluating the benign-case check itself (non-dict 400 body, or an
`errorMessages` value that supports no membership test). -/
def sprintValidateResponse (status : Nat) (body : Json) : Option Bool :=
  if status = 400 then
    match body with
    | .obj fs =>
        match pyInStr boardSprintMsg ((dget fs "errorMessages").getD (Json.arr [])) with
        | none => none
        | some true => some true
        | some false => some (defaultValidateResponse status)
    | _ => none
  else some (defaultValidateResponse status)

/-! ## IssueWatchersStream.post_process

```python
def post_process(self, row, context):
    row["issueId"] = context["issue_id"]
    return row
```
-/

/-- Embeds `IssueWatchersStream.post_process`; `none` is a raised `KeyError`. -/
def issueWatchersPostProcess (row : Dict) (ctx : Dict) : Option Dict :=
  match dget ctx "issue_id" with
  | some v => some (dset row "issueId" v)
  | none => none

/-! ## ProjectRoleActorStream.get_records

```python
role_actor_records = []
role_id = [record.get("id") for record in list(ProjectRoleStream(...).get_records(context))]
project_id = [record.get("id") for record in list(project.get_records(context))]
for pid in project_id:
    for role in role_id:
        try:
            ... project_role_actor = ProjectRoleActor(...)
            role_actor_records.append(list(project_role_actor.get_records(context)))
        except:
            pass
return functools.reduce(operator.iadd, role_actor_records, [])
```
The per-combination sub-fetch (constructing the throwaway stream class
and materializing its records) is abstracted as a function `fetch`;
`fetch pid role = none` means that sub-fetch raised. -/

/-- Embeds `record.get("id")`: the id field of a parent record, `None` when
absent. -/
def recordId (r : Dict) : Json := (dget r "id").getD Json.null

/-- The inner `for role in role_id` loop for one project id: the list of
per-combination record lists appended by succeeding sub-fetches. -/
def fanOutInner (fetch : Json → Json → Option (List Dict)) (pid : Json) :
    List Json → List (List Dict)
  | [] => []
  | role :: roles =>
      match fetch pid role with
      | some recs => recs :: fanOutInner fetch pid roles
      | none => fanOutInner fetch pid roles

/-- The outer `for pid in project_id` loop: all sub-fetch record lists in
loop order. -/
def fanOutCollect (fetch : Json → Json → Option (List Dict)) :
    List Json → List Json → List (List Dict)
  | [], _ => []
  | pid :: pids, roles =>
      fanOutInner fetch pid roles ++ fanOutCollect fetch pids roles

/-- Embeds `ProjectRoleActorStream.get_records`, given the materialized
project-record and role-record lists and the abstracted sub-fetch.
`functools.reduce(operator.iadd, lists, [])` is a left fold of list
append starting from the empty list. -/
def projectRoleActorGetRecords (fetch : Json → Json → Option (List Dict))
    (projectRecords roleRecords : List Dict) : List Dict :=
  let roleIds := roleRecords.map recordId
  let projectIds := projectRecords.map recordId
  (fanOutCollect fetch projectIds roleIds).foldl (· ++ ·) []

/-! ## IssueStream.get_url_params

```python
params: dict = {}
params["maxResults"] = self.config.get("page_size", {}).get("issues", 10)
jql: list[str] = []
if next_page_token:
    params["startAt"] = next_page_token
if self.replication_key:
    params["sort"] = "asc"
    params["order_by"] = self.replication_key
if "start_date" in self.config:
    start_date = self.config["start_date"]
    jql.append(f"(created>='{start_date}' or updated>='{start_date}')")
if "end_date" in self.config:
    end_date = self.config["end_date"]
    jql.append(f"(created<'{end_date}' or updated<'{end_date}')")
if base_jql := self.config.get("stream_options", {}).get("issues", {}).get("jql"):
    jql.append(f"({base_jql})")
if jql:
    params["jql"] = " and ".join(jql)
return params
```
`IssueStream.replication_key` is the (truthy) string `"id"`. -/

/-- The configuration fields `IssueStream.get_url_params` reads. -/
structure IssueConfig where
  start_date : Option String
  end_date : Option String
  /-- Value of `config["stream_options"]["issues"]["jql"]`, when that path exists. -/
  issuesJql : Option String
  /-- Value of `config["page_size"]["issues"]`, when that path exists. -/
  issuesPageSize : Option Int

/-- A single-quote character, as a string. -/
def sq : String := String.singleton (Char.ofNat 39)

/-- The lower-bound JQL clause built from `start_date`. -/
def startDateClause (d : String) : String :=
  "(created>=" ++ sq ++ d ++ sq ++ " or updated>=" ++ sq ++ d ++ sq ++ ")"

/-- The upper-bound JQL clause built from `end_date`. -/
def endDateClause (d : String) : String :=
  "(created<" ++ sq ++ d ++ sq ++ " or updated<" ++ sq ++ d ++ sq ++ ")"

/-- Clause list `jql` built by the three `jql.append(...)` calls, in
append order: lower bound, upper bound, raw fragment.  The raw fragment
is only appended when it is truthy (present and nonempty). -/
def issueJqlClauses (cfg : IssueConfig) : List String :=
  (match cfg.start_date with
   | some s => [startDateClause s]
   | none => [])
  ++ (match cfg.end_date with
      | some e => [endDateClause e]
      | none => [])
  ++ (match cfg.issuesJql with
      | some b => if b = "" then [] else ["(" ++ b ++ ")"]
      | none => [])

/-- Embeds `IssueStream.get_url_params`.  A token of `0` (or `None`) is falsy,
so `startAt` is only set for a nonzero token. -/
def issueGetUrlParams (cfg : IssueConfig) (nextPageToken : Option Int) : Dict :=
  let params : Dict := [("maxResults", Json.num (cfg.issuesPageSize.getD 10))]
  let params :=
    match nextPageToken with
    | some n => if n = 0 then params else dset params "startAt" (Json.num n)
    | none => params
  let params := dset (dset params "sort" (Json.str "asc")) "order_by" (Json.str "id")
  let jql := issueJqlClauses cfg
  if jql.isEmpty then params
  else dset params "jql" (Json.str (String.intercalate " and " jql))

/-! ## Dictionary lemmas -/

theorem dget_dset_self (d : Dict) (k : String) (v : Json) :
    dget (dset d k v) k = some v := by
  induction d with
  | nil => simp [dset, dget]
  | cons hd tl ih =>
      obtain ⟨k1, v1⟩ := hd
      by_cases h : k1 = k
      · simp [dset, dget, h]
      · simp [dset, dget, h, ih]

theorem dkeys_nil : dkeys [] = [] := rfl

theorem dkeys_cons (k : String) (v : Json) (tl : Dict) :
    dkeys ((k, v) :: tl) = k :: dkeys tl := rfl

theorem dget_dset_ne (d : Dict) (k : String) (v : Json) (k2 : String)
    (h : k2 ≠ k) : dget (dset d k v) k2 = dget d k2 := by
  induction d with
  | nil => simp [dset, dget, h.symm]
  | cons hd tl ih =>
      obtain ⟨k1, v1⟩ := hd
      by_cases h1 : k1 = k
      · subst h1
        simp [dset, dget, h.symm]
      · simp [dset, dget, h1, ih]

theorem dget_dremove_ne (d : Dict) (k k2 : String) (h : k2 ≠ k) :
    dget (dremove d k) k2 = dget d k2 := by
  induction d with
  | nil => simp [dremove, dget]
  | cons hd tl ih =>
      obtain ⟨k1, v1⟩ := hd
      by_cases h1 : k1 = k
      · subst h1
        simp [dremove, dget, h.symm]
      · simp [dremove, dget, h1, ih]

theorem dget_eq_none_iff (d : Dict) (k : String) :
    dget d k = none ↔ k ∉ dkeys d := by
  induction d with
  | nil => simp [dget, dkeys]
  | cons hd tl ih =>
      obtain ⟨k1, v1⟩ := hd
      by_cases h : k1 = k
      · subst h
        simp [dget, dkeys_cons]
      · have hne : k ≠ k1 := fun hh => h hh.symm
        simp [dget, dkeys_cons, h, hne, ih]

theorem dremove_eq_self_of_dget_eq_none (d : Dict) (k : String)
    (h : dget d k = none) : dremove d k = d := by
  induction d with
  | nil => simp [dremove]
  | cons hd tl ih =>
      obtain ⟨k1, v1⟩ := hd
      by_cases h1 : k1 = k
      · simp [dget, h1] at h
      · simp [dget, h1] at h
        simp [dremove, h1, ih h]

theorem dget_dremove_self_of_nodup (d : Dict) (k : String)
    (h : (dkeys d).Nodup) : dget (dremove d k) k = none := by
  induction d with
  | nil => simp [dremove, dget]
  | cons hd tl ih =>
      obtain ⟨k1, v1⟩ := hd
      rw [dkeys_cons, List.nodup_cons] at h
      by_cases h1 : k1 = k
      · subst h1
        simp only [dremove, if_pos rfl]
        exact (dget_eq_none_iff tl k1).2 h.1
      · simp [dremove, dget, h1, ih h.2]

theorem dset_eq_self_of_dget (d : Dict) (k : String) (v : Json)
    (h : dget d k = some v) : dset d k v = d := by
  induction d with
  | nil => simp [dget] at h
  | cons hd tl ih =>
      obtain ⟨k1, v1⟩ := hd
      by_cases h1 : k1 = k
      · simp [dget, h1] at h
        simp [dset, h1, h]
      · simp [dget, h1] at h
        simp [dset, h1, ih h]

theorem dkeys_dset_of_mem (d : Dict) (k : String) (v : Json)
    (h : k ∈ dkeys d) : dkeys (dset d k v) = dkeys d := by
  induction d with
  | nil => simp [dkeys] at h
  | cons hd tl ih =>
      obtain ⟨k1, v1⟩ := hd
      by_cases h1 : k1 = k
      · subst h1
        simp [dset, dkeys_cons]
      · have hne : k ≠ k1 := fun hh => h1 hh.symm
        rw [dkeys_cons, List.mem_cons] at h
        rcases h with h | h
        · exact absurd h hne
        · simp [dset, h1, dkeys_cons, ih h]

theorem dget_isSome_iff_mem (d : Dict) (k : String) :
    dget d k ≠ none ↔ k ∈ dkeys d := by
  rw [Ne, dget_eq_none_iff]
  exact not_not

/-! ## Claim C3: UsersStream pagination token -/

/-- Claim C3: `UsersStream.get_next_page_token`: an empty-array body yields
token `None` (terminating pagination); a non-empty array of `n` records
yields the previous token (taken as `0` when it is `None`) plus `n`. -/
theorem users_next_page_token_spec (xs : List Json) (prev : Option Int) :
    (xs = [] → usersGetNextPageToken (Json.arr xs) prev = some none)
    ∧ (xs ≠ [] →
        usersGetNextPageToken (Json.arr xs) prev =
          some (some (prev.getD 0 + xs.length))) := by
  constructor
  · intro h
    subst h
    rfl
  · intro h
    have hlen : xs.length ≠ 0 := by simpa using h
    simp [usersGetNextPageToken, pyLen, hlen]

/-- Witness for C3 at a two-record page with previous token `5`. -/
theorem users_next_page_token_spec_witness :
    usersGetNextPageToken (Json.arr [Json.num 1, Json.num 2]) (some 5) =
      some (some 7) :=
  (users_next_page_token_spec [Json.num 1, Json.num 2] (some 5)).2 (by decide)

/-! ## Claim C9: child-context derivation -/

/-- Claim C9: `IssueStream.get_child_context` returns exactly
`{"issue_id": record["id"]}` and `BoardStream.get_child_context` returns
exactly `{"board_id": record["id"]}`: a single-key mapping from the
child-specific context-key name to the parent record's `id` field. -/
theorem get_child_context_spec (record : Dict) (v : Json)
    (h : dget record "id" = some v) :
    issueGetChildContext record = some [("issue_id", v)]
    ∧ boardGetChildContext record = some [("board_id", v)] := by
  simp [issueGetChildContext, boardGetChildContext, h]

/-- Witness for C9 at a record with id `3`. -/
theorem get_child_context_spec_witness :
    issueGetChildContext [("id", Json.num 3)] = some [("issue_id", Json.num 3)]
    ∧ boardGetChildContext [("id", Json.num 3)] = some [("board_id", Json.num 3)] :=
  get_child_context_spec [("id", Json.num 3)] (Json.num 3) rfl

/-! ## Claim C6: IssueStream.post_process hoists `created` -/

/-- Claim C6: when the `fields` sub-object of a record holds a `created`
entry with value `v`, `IssueStream.post_process` returns a record whose
top-level `created` equals `v`, whose `fields` sub-object no longer holds
`created`, and whose every other field — top-level and inside `fields` —
is unchanged. -/
theorem issue_post_process_hoists_created (row : Dict) (fs : Dict) (v : Json)
    (hf : dget row "fields" = some (Json.obj fs))
    (hc : dget fs "created" = some v)
    (hnd : (dkeys fs).Nodup) :
    ∃ r, issuePostProcess row = some r
      ∧ dget r "created" = some v
      ∧ dget r "fields" = some (Json.obj (dremove fs "created"))
      ∧ dget (dremove fs "created") "created" = none
      ∧ (∀ k, k ≠ "created" → k ≠ "fields" → dget r k = dget row k)
      ∧ (∀ k, k ≠ "created" → dget (dremove fs "created") k = dget fs k) := by
  refine ⟨dset (dset row "fields" (Json.obj (dremove fs "created"))) "created" v,
    by simp [issuePostProcess, hf, hc], dget_dset_self _ _ _, ?_,
    dget_dremove_self_of_nodup fs "created" hnd, ?_, ?_⟩
  · rw [dget_dset_ne _ _ _ _ (by decide), dget_dset_self]
  · intro k hk1 hk2
    rw [dget_dset_ne _ _ _ _ hk1, dget_dset_ne _ _ _ _ hk2]
  · intro k hk
    exact dget_dremove_ne fs "created" k hk

/-- Witness for C6 at a record with `fields = {"created": "2024", "x": 5}`. -/
theorem issue_post_process_hoists_created_witness :
    ∃ r, issuePostProcess
        [("id", Json.num 1),
         ("fields", Json.obj [("created", Json.str "2024"), ("x", Json.num 5)])] = some r
      ∧ dget r "created" = some (Json.str "2024")
      ∧ dget r "fields" =
          some (Json.obj (dremove [("created", Json.str "2024"), ("x", Json.num 5)] "created"))
      ∧ dget (dremove [("created", Json.str "2024"), ("x", Json.num 5)] "created") "created" = none
      ∧ (∀ k, k ≠ "created" → k ≠ "fields" →
          dget r k = dget [("id", Json.num 1),
            ("fields", Json.obj [("created", Json.str "2024"), ("x", Json.num 5)])] k)
      ∧ (∀ k, k ≠ "created" →
          dget (dremove [("created", Json.str "2024"), ("x", Json.num 5)] "created") k =
            dget [("created", Json.str "2024"), ("x", Json.num 5)] k) :=
  issue_post_process_hoists_created
    [("id", Json.num 1),
     ("fields", Json.obj [("created", Json.str "2024"), ("x", Json.num 5)])]
    [("created", Json.str "2024"), ("x", Json.num 5)]
    (Json.str "2024") rfl rfl (by decide)

/-! ## Claim C10 (corrected): totality of IssueStream.post_process -/

/-- Claim C10, counterexample: the claim asserts the call never fails when
`fields` is present but lacks a `created` entry.  On the record
`{"fields": "x"}` the `fields` entry is present (a string, so it has no
`created` entry), and `row.get("fields", {}).pop(...)` raises
`AttributeError`: the embedded call yields `none` (an exception), not a
record. -/
theorem issue_post_process_total_counterexample :
    issuePostProcess [("fields", Json.str "x")] = none := rfl

/-- Claim C10, amended: for every record in which the `fields` entry is
absent, or present *as an object* but lacking a `created` entry,
`IssueStream.post_process` does not fail and the returned record has a
top-level `created` key whose value is null. -/
theorem issue_post_process_total_amended (row : Dict)
    (h : dget row "fields" = none ∨
         ∃ fs, dget row "fields" = some (Json.obj fs) ∧ dget fs "created" = none) :
    ∃ r, issuePostProcess row = some r ∧ dget r "created" = some Json.null := by
  rcases h with h | ⟨fs, hf, hc⟩
  · refine ⟨dset row "created" Json.null, ?_, dget_dset_self _ _ _⟩
    simp [issuePostProcess, h]
  · refine ⟨dset (dset row "fields" (Json.obj (dremove fs "created"))) "created" Json.null,
      ?_, dget_dset_self _ _ _⟩
    simp [issuePostProcess, hf, hc]

/-- Witness for the amended C10 at a record with no `fields` entry. -/
theorem issue_post_process_total_amended_witness :
    ∃ r, issuePostProcess [("a", Json.num 1)] = some r
      ∧ dget r "created" = some Json.null :=
  issue_post_process_total_amended [("a", Json.num 1)] (Or.inl rfl)

/-! ## Claim C5 (corrected): normalizer idempotence on shape -/

/-- Claim C5, counterexample: the claim asserts that an already-normalized
record with no remaining nested target fields is returned unchanged.
For `IssueStream.post_process`, the already-normalized record
`{"fields": {"x": 5}, "created": "2024"}` (its `fields` sub-object no
longer holds `created`) is *not* returned unchanged: the method
re-assigns `row["created"] = row.get("fields", {}).pop("created", None)`,
resetting the top-level `created` to null. -/
theorem normalizer_idempotence_counterexample :
    issuePostProcess [("fields", Json.obj [("x", Json.num 5)]), ("created", Json.str "2024")]
      ≠ some [("fields", Json.obj [("x", Json.num 5)]), ("created", Json.str "2024")] := by
  decide

/-- Claim C5, amended: applying the normalizer a second time duplicates no
top-level field: `WorkflowSearchStream.post_process` on a record with no
`id` key is a literal no-op; `IssueStream.post_process` on a record whose
`fields` sub-object lacks `created` preserves the record's key sequence
whenever a top-level `created` key is present, and is a literal no-op
exactly when the top-level `created` value is already null (otherwise it
resets that one value to null). -/
theorem normalizer_idempotence_amended (row : Dict) :
    (dget row "id" = none → workflowSearchPostProcess row = some row)
    ∧ (∀ fs, dget row "fields" = some (Json.obj fs) → dget fs "created" = none →
        dget row "created" = some Json.null → issuePostProcess row = some row)
    ∧ (∀ fs, dget row "fields" = some (Json.obj fs) → dget fs "created" = none →
        "created" ∈ dkeys row →
        ∃ r, issuePostProcess row = some r ∧ dkeys r = dkeys row) := by
  refine ⟨?_, ?_, ?_⟩
  · intro h
    simp [workflowSearchPostProcess, h]
  · intro fs hf hc hcr
    have hrem : dremove fs "created" = fs := dremove_eq_self_of_dget_eq_none fs _ hc
    have hfix : dset row "fields" (Json.obj fs) = row := dset_eq_self_of_dget row _ _ hf
    simp [issuePostProcess, hf, hc, hrem, hfix, dset_eq_self_of_dget row _ _ hcr]
  · intro fs hf hc hmem
    have hfm : "fields" ∈ dkeys row :=
      (dget_isSome_iff_mem row "fields").1 (by simp [hf])
    refine ⟨dset (dset row "fields" (Json.obj (dremove fs "created"))) "created" Json.null,
      ?_, ?_⟩
    · simp [issuePostProcess, hf, hc]
    · rw [dkeys_dset_of_mem _ _ _ (by rwa [dkeys_dset_of_mem _ _ _ hfm]),
        dkeys_dset_of_mem _ _ _ hfm]

/-- Witness for the amended C5: a no-`id` record through
`WorkflowSearchStream.post_process` and an already-normalized record
(top-level `created` null) through `IssueStream.post_process`. -/
theorem normalizer_idempotence_amended_witness :
    workflowSearchPostProcess [("z", Json.num 0)] = some [("z", Json.num 0)]
    ∧ issuePostProcess [("fields", Json.obj [("x", Json.num 5)]), ("created", Json.null)]
        = some [("fields", Json.obj [("x", Json.num 5)]), ("created", Json.null)] :=
  ⟨(normalizer_idempotence_amended [("z", Json.num 0)]).1 rfl,
   (normalizer_idempotence_amended
      [("fields", Json.obj [("x", Json.num 5)]), ("created", Json.null)]).2.1
     [("x", Json.num 5)] rfl rfl rfl⟩

/-! ## Claim C8: child streams inject the parent identifier -/

/-- Claim C8: with a board context carrying `board_id`,
`SprintStream.post_process` returns the record with a top-level `boardId`
equal to the parent board's identifier; with an issue context carrying
`issue_id`, `IssueWatchersStream.post_process` returns the record with a
top-level `issueId` equal to the parent issue's identifier; in both
cases no field other than the injected one is changed. -/
theorem child_post_process_injects_parent_id
    (row1 ctx1 row2 ctx2 : Dict) (v w : Json)
    (h1 : ctx1 ≠ []) (hb : dget ctx1 "board_id" = some v)
    (hw : dget ctx2 "issue_id" = some w) :
    (∃ r, sprintPostProcess row1 (some ctx1) = some (some r)
       ∧ dget r "boardId" = some v
       ∧ ∀ k, k ≠ "boardId" → dget r k = dget row1 k)
    ∧ (∃ r, issueWatchersPostProcess row2 ctx2 = some r
       ∧ dget r "issueId" = some w
       ∧ ∀ k, k ≠ "issueId" → dget r k = dget row2 k) := by
  have hne : ctx1.isEmpty = false := by simpa using h1
  constructor
  · exact ⟨dset row1 "boardId" v, by simp [sprintPostProcess, hne, hb],
      dget_dset_self _ _ _, fun k hk => dget_dset_ne _ _ _ _ hk⟩
  · exact ⟨dset row2 "issueId" w, by simp [issueWatchersPostProcess, hw],
      dget_dset_self _ _ _, fun k hk => dget_dset_ne _ _ _ _ hk⟩

/-- Witness for C8 at singleton contexts with board id `7` and issue id `9`. -/
theorem child_post_process_injects_parent_id_witness :
    (∃ r, sprintPostProcess [("a", Json.num 1)] (some [("board_id", Json.num 7)])
        = some (some r)
       ∧ dget r "boardId" = some (Json.num 7)
       ∧ ∀ k, k ≠ "boardId" → dget r k = dget [("a", Json.num 1)] k)
    ∧ (∃ r, issueWatchersPostProcess [("b", Json.num 2)] [("issue_id", Json.num 9)]
        = some r
       ∧ dget r "issueId" = some (Json.num 9)
       ∧ ∀ k, k ≠ "issueId" → dget r k = dget [("b", Json.num 2)] k) :=
  child_post_process_injects_parent_id
    [("a", Json.num 1)] [("board_id", Json.num 7)]
    [("b", Json.num 2)] [("issue_id", Json.num 9)]
    (Json.num 7) (Json.num 9) (by decide) rfl rfl

/-! ## Claim C7: SprintStream.get_records emits exactly the
non-suppressed post-processed records -/

/-- Claim C7: when no post-processing call raises, `SprintStream.get_records`
emits, in order, exactly the post-processed results of those request
records whose `post_process` result is not `None`; a record whose
`post_process` returns `None` contributes nothing. -/
theorem sprint_get_records_filter_spec (context : Option Dict) (rs : List Dict)
    (h : ∀ r ∈ rs, sprintPostProcess r context ≠ none) :
    sprintGetRecords context rs =
      some (rs.filterMap fun r => (sprintPostProcess r context).bind id) := by
  induction rs with
  | nil => rfl
  | cons r rest ih =>
      have hr := h r (List.mem_cons_self r rest)
      have hrest := ih fun x hx => h x (List.mem_cons_of_mem r hx)
      cases hpp : sprintPostProcess r context with
      | none => exact absurd hpp hr
      | some o =>
          cases o with
          | none => simp [sprintGetRecords, hpp, hrest, List.filterMap_cons]
          | some t => simp [sprintGetRecords, hpp, hrest, List.filterMap_cons]

/-- Witness for C7 at a board context and a two-record request sequence. -/
theorem sprint_get_records_filter_spec_witness :
    sprintGetRecords (some [("board_id", Json.num 7)])
        [[("a", Json.num 1)], [("b", Json.num 2)]] =
      some (([[("a", Json.num 1)], [("b", Json.num 2)]] : List Dict).filterMap
        fun r => (sprintPostProcess r (some [("board_id", Json.num 7)])).bind id) :=
  sprint_get_records_filter_spec (some [("board_id", Json.num 7)])
    [[("a", Json.num 1)], [("b", Json.num 2)]] (by decide)

/-! ## Claim C2 (corrected): SprintStream.validate_response benign 400 -/

/-- Claim C2, counterexample: the claim asserts that every 400 response
other than one whose `errorMessages` *list* contains
`"The board does not support sprints"` falls through to the default
validation and raises.  On the 400 body
`{"errorMessages": "The board does not support sprints"}` the
`errorMessages` value is a string, not a list containing the message,
yet Python's `in` performs a substring test on it, which succeeds — so
`SprintStream.validate_response` returns normally instead of raising. -/
theorem sprint_validate_response_counterexample :
    sprintValidateResponse 400
        (Json.obj [("errorMessages", Json.str boardSprintMsg)]) = some true := by
  decide

/-- Claim C2, amended: the benign condition on a 400 response is
Python's membership test of the message in the body's `errorMessages`
value (defaulted to the empty list when absent) — element membership for
a list, substring for a string, key membership for an object.  When that
test succeeds the method returns normally; when it runs and fails, the
method falls through to the default validation, and the default
validation rejects (raises on) status 400. -/
theorem sprint_validate_response_amended (fs : List (String × Json)) (em : Json)
    (hm : (dget fs "errorMessages").getD (Json.arr []) = em) :
    (pyInStr boardSprintMsg em = some true →
        sprintValidateResponse 400 (Json.obj fs) = some true)
    ∧ (pyInStr boardSprintMsg em = some false →
        sprintValidateResponse 400 (Json.obj fs) = some false)
    ∧ defaultValidateResponse 400 = false := by
  refine ⟨?_, ?_, rfl⟩
  · intro h
    simp [sprintValidateResponse, hm, h]
  · intro h
    simp [sprintValidateResponse, hm, h, defaultValidateResponse]

/-- Witness for the amended C2: a list body holding the benign message is
accepted, a list body without it is rejected. -/
theorem sprint_validate_response_amended_witness :
    sprintValidateResponse 400
        (Json.obj [("errorMessages", Json.arr [Json.str boardSprintMsg])]) = some true
    ∧ sprintValidateResponse 400
        (Json.obj [("errorMessages", Json.arr [Json.str "other"])]) = some false :=
  ⟨(sprint_validate_response_amended [("errorMessages", Json.arr [Json.str boardSprintMsg])]
      (Json.arr [Json.str boardSprintMsg]) rfl).1 (by decide),
   (sprint_validate_response_amended [("errorMessages", Json.arr [Json.str "other"])]
      (Json.arr [Json.str "other"]) rfl).2.1 (by decide)⟩

/-! ## Claim C4: fan-out executor -/

theorem foldl_append_eq_flatten {α : Type} (ls : List (List α)) (acc : List α) :
    ls.foldl (· ++ ·) acc = acc ++ ls.flatten := by
  induction ls generalizing acc with
  | nil => simp
  | cons hd tl ih => simp [List.foldl_cons, ih, List.flatten_cons, List.append_assoc]

theorem fanOutInner_flatten (fetch : Json → Json → Option (List Dict))
    (pid : Json) (roles : List Json) :
    (fanOutInner fetch pid roles).flatten =
      (roles.map fun role => (fetch pid role).getD []).flatten := by
  induction roles with
  | nil => rfl
  | cons r rest ih =>
      cases hf : fetch pid r with
      | none => simp [fanOutInner, hf, ih]
      | some recs => simp [fanOutInner, hf, ih]

theorem fanOutCollect_flatten (fetch : Json → Json → Option (List Dict))
    (pids roles : List Json) :
    (fanOutCollect fetch pids roles).flatten =
      (pids.map fun pid =>
        (roles.map fun role => (fetch pid role).getD []).flatten).flatten := by
  induction pids with
  | nil => rfl
  | cons pid rest ih =>
      simp [fanOutCollect, List.flatten_append, ih, fanOutInner_flatten]

/-- Claim C4: `ProjectRoleActorStream.get_records` equals the concatenation,
outer loop over the project records in order and inner loop over the role
records in order, of each succeeding sub-fetch's record list in its own
order; a sub-fetch that raises contributes the empty list and aborts
nothing; the result is a plain concatenation with no deduplication. -/
theorem project_role_actor_fanout_spec (fetch : Json → Json → Option (List Dict))
    (A B : List Dict) :
    projectRoleActorGetRecords fetch A B =
      (A.map fun p =>
        (B.map fun r => (fetch (recordId p) (recordId r)).getD []).flatten).flatten := by
  unfold projectRoleActorGetRecords
  rw [foldl_append_eq_flatten, List.nil_append, fanOutCollect_flatten]
  simp only [List.map_map]
  rfl

/-! ## Claim C1: incremental filter construction -/

theorem dget_params_jql (cfg : IssueConfig) (tok : Option Int) :
    dget (issueGetUrlParams cfg tok) "jql" =
      if issueJqlClauses cfg = [] then none
      else some (Json.str (String.intercalate " and " (issueJqlClauses cfg))) := by
  cases hj : issueJqlClauses cfg with
  | nil =>
      rcases tok with _ | n
      · simp [issueGetUrlParams, hj, dget, dset]
      · by_cases hn : n = 0 <;> simp [issueGetUrlParams, hj, hn, dget, dset]
  | cons c cs =>
      rcases tok with _ | n
      · simp [issueGetUrlParams, hj, dget_dset_self]
      · by_cases hn : n = 0 <;> simp [issueGetUrlParams, hj, hn, dget_dset_self]

/-- Claim C1: `IssueStream.get_url_params`: with a lower bound `L` and an
upper bound `U` configured and no raw fragment, the `jql` parameter is
exactly `(created>='L' or updated>='L') and (created<'U' or updated<'U')`;
with only the lower bound, only the first clause; a configured raw
fragment is parenthesized and ANDed in; with no bound and no fragment the
`jql` key is absent from the returned parameters. -/
theorem issue_jql_filter_construction (L U b : String) (hb : b ≠ "")
    (ps tok : Option Int) :
    (dget (issueGetUrlParams ⟨some L, some U, none, ps⟩ tok) "jql" =
        some (Json.str ("(created>=" ++ sq ++ L ++ sq ++ " or updated>=" ++ sq ++ L
          ++ sq ++ ")" ++ " and " ++ "(created<" ++ sq ++ U ++ sq ++ " or updated<"
          ++ sq ++ U ++ sq ++ ")")))
    ∧ (dget (issueGetUrlParams ⟨some L, none, none, ps⟩ tok) "jql" =
        some (Json.str ("(created>=" ++ sq ++ L ++ sq ++ " or updated>=" ++ sq ++ L
          ++ sq ++ ")")))
    ∧ (dget (issueGetUrlParams ⟨some L, some U, some b, ps⟩ tok) "jql" =
        some (Json.str ("(created>=" ++ sq ++ L ++ sq ++ " or updated>=" ++ sq ++ L
          ++ sq ++ ")" ++ " and " ++ "(created<" ++ sq ++ U ++ sq ++ " or updated<"
          ++ sq ++ U ++ sq ++ ")" ++ " and " ++ "(" ++ b ++ ")")))
    ∧ dget (issueGetUrlParams ⟨none, none, none, ps⟩ tok) "jql" = none := by
  refine ⟨?_, ?_, ?_, ?_⟩
  · rw [dget_params_jql]
    rw [show issueJqlClauses ⟨some L, some U, none, ps⟩ =
          [startDateClause L, endDateClause U] from rfl]
    rw [if_neg (by simp)]
    rw [show String.intercalate " and " [startDateClause L, endDateClause U] =
          startDateClause L ++ " and " ++ endDateClause U from rfl]
    simp only [startDateClause, endDateClause, String.append_assoc]
  · rw [dget_params_jql]
    rw [show issueJqlClauses ⟨some L, none, none, ps⟩ = [startDateClause L] from rfl]
    rw [if_neg (by simp)]
    rfl
  · rw [dget_params_jql]
    rw [show issueJqlClauses ⟨some L, some U, some b, ps⟩ =
          [startDateClause L, endDateClause U] ++
            (if b = "" then [] else ["(" ++ b ++ ")"]) from rfl]
    rw [if_neg hb, if_neg (by simp)]
    rw [show String.intercalate " and "
          ([startDateClause L, endDateClause U] ++ ["(" ++ b ++ ")"]) =
          startDateClause L ++ " and " ++ endDateClause U ++ " and " ++ ("(" ++ b ++ ")")
          from rfl]
    simp only [startDateClause, endDateClause, String.append_assoc]
  · rw [dget_params_jql]
    rfl

/-- Witness for C1 at `L = "2024-01-01"`, `U = "2024-02-01"`,
`b = "project=X"`. -/
theorem issue_jql_filter_construction_witness :
    dget (issueGetUrlParams ⟨some "2024-01-01", some "2024-02-01", none, none⟩ none)
        "jql" =
      some (Json.str ("(created>=" ++ sq ++ "2024-01-01" ++ sq ++ " or updated>="
        ++ sq ++ "2024-01-01" ++ sq ++ ")" ++ " and " ++ "(created<" ++ sq
        ++ "2024-02-01" ++ sq ++ " or updated<" ++ sq ++ "2024-02-01" ++ sq ++ ")")) :=
  (issue_jql_filter_construction "2024-01-01" "2024-02-01" "project=X"
    (by decide) none none).1

end TapJira
